import Mathlib

/-!
Verification of the llamacpp-python CLI (`llamacpp/cli.py`) and its batch
generation loop (`tests/test_llama_context.py`, `test_eval`).

The native `llamacpp` extension module (`PyLLAMA`, `LlamaContext`) is not part
of the repository's Python sources; where its behaviour is needed it is
modelled from the specification (see the doc comments marked
`Modelled from the spec:`).  Floating-point sampling parameters (`top_p`,
`temp`, `repeat_penalty`) are passed through to the native model untouched by
the CLI, so they are not modelled.
-/

namespace Llamacpp

/-! ### The batch generation loop of `test_eval` (src/tests/test_llama_context.py)

The loop

    while n_remain:
        if len(embd):
            llama_context.eval(array.array('i', embd), len(embd), n_past, 1)
        n_past += len(embd)
        embd.clear()
        if len(embd_inp) <= n_consumed:
            id = llama_context.sample_top_p_top_k(...)
            embd.append(id)
            n_remain -= 1
        else:
            while len(embd_inp) > n_consumed:
                embd.append(embd_inp[n_consumed])
                n_consumed += 1
        output += ''.join([llama_context.token_to_str(id) for id in embd])

is embedded as a step function on the state below.  `evaluated` and `sampled`
are ghost fields recording, respectively, the concatenation of every array
ever passed to `eval` and the list of ids returned by `sample_top_p_top_k`;
`outTokens` records the token ids whose decoded text was appended to
`output`.  The sampler is an oracle `o : Nat → Int` giving the k-th sampled
token id (the native sampler is deterministic for a fixed seed, so its k-th
answer is a function of k). -/

structure EvalSt where
  n_past : Nat
  n_remain : Nat
  n_consumed : Nat
  embd : List Int
  evaluated : List Int
  sampled : List Int
  outTokens : List Int
  deriving Repr, DecidableEq

/-- Initial state of `test_eval`: `n_past, n_remain, n_consumed = 0, np, 0`,
`embd = []`. -/
def evalInit (np : Nat) : EvalSt :=
  ⟨0, np, 0, [], [], [], []⟩

/-- One iteration of the `while n_remain:` body (assumed running, i.e. the
loop guard already checked). -/
def evalBody (inp : List Int) (o : Nat → Int) (s : EvalSt) : EvalSt :=
  -- eval(embd, len(embd), n_past, 1); n_past += len(embd); embd.clear()
  let s := { s with
    evaluated := s.evaluated ++ s.embd
    n_past := s.n_past + s.embd.length
    embd := ([] : List Int) }
  if inp.length ≤ s.n_consumed then
    -- sample branch
    let id := o s.sampled.length
    { s with
      embd := [id]
      sampled := s.sampled ++ [id]
      n_remain := s.n_remain - 1
      outTokens := s.outTokens ++ [id] }
  else
    -- unconsumed-input branch: drain the whole remaining prompt into embd
    let seg := inp.drop s.n_consumed
    { s with
      embd := seg
      n_consumed := inp.length
      outTokens := s.outTokens ++ seg }

/-- One guarded loop step: the body runs only while `n_remain ≠ 0`. -/
def evalStep (inp : List Int) (o : Nat → Int) (s : EvalSt) : EvalSt :=
  if s.n_remain = 0 then s else evalBody inp o s

/-- State after `n` loop steps of `test_eval` with prompt `inp` and sampling
budget `np`. -/
def evalRun (inp : List Int) (o : Nat → Int) (np : Nat) : Nat → EvalSt
  | 0 => evalInit np
  | n + 1 => evalStep inp o (evalRun inp o np n)

/-! #### Loop invariants -/

/-- The inductive invariant of the `test_eval` loop. -/
def EvalInv (inp : List Int) (s : EvalSt) : Prop :=
  s.n_past = s.evaluated.length ∧
  s.evaluated ++ s.embd = inp.take s.n_consumed ++ s.sampled ∧
  s.n_consumed ≤ inp.length ∧
  (s.sampled = [] ∨ s.n_consumed = inp.length) ∧
  s.outTokens = inp.take s.n_consumed ++ s.sampled

theorem evalBody_inv (inp : List Int) (o : Nat → Int) (s : EvalSt)
    (h : EvalInv inp s) : EvalInv inp (evalBody inp o s) := by
  obtain ⟨h1, h2, h3, h4, h5⟩ := h
  by_cases hc : inp.length ≤ s.n_consumed
  · have hceq : s.n_consumed = inp.length := Nat.le_antisymm h3 hc
    refine ⟨?_, ?_, ?_, Or.inr ?_, ?_⟩
    · simp [evalBody, hc, h1]
    · have hx : s.evaluated ++ s.embd ++ [o s.sampled.length]
          = List.take s.n_consumed inp ++ s.sampled ++ [o s.sampled.length] := by
        rw [h2]
      simpa [evalBody, hc] using hx
    · simpa [evalBody, hc] using h3
    · simp [evalBody, hc, hceq]
    · simp [evalBody, hc, h5]
  · have hlt : s.n_consumed < inp.length := Nat.not_le.mp hc
    have hs : s.sampled = [] := h4.resolve_right (Nat.ne_of_lt hlt)
    rw [hs, List.append_nil] at h2
    refine ⟨?_, ?_, ?_, Or.inl ?_, ?_⟩
    · simp [evalBody, hc, h1]
    · have hx : s.evaluated ++ s.embd ++ List.drop s.n_consumed inp
          = List.take s.n_consumed inp ++ List.drop s.n_consumed inp := by
        rw [h2]
      rw [List.take_append_drop] at hx
      simpa [evalBody, hc, hs] using hx
    · simp [evalBody, hc]
    · simp [evalBody, hc, hs]
    · simp [evalBody, hc, h5, hs, List.take_append_drop]

theorem evalRun_inv (inp : List Int) (o : Nat → Int) (np n : Nat) :
    EvalInv inp (evalRun inp o np n) := by
  induction n with
  | zero =>
      refine ⟨rfl, by simp [evalRun, evalInit], by simp [evalRun, evalInit],
        Or.inl rfl, by simp [evalRun, evalInit]⟩
  | succ n ih =>
      show EvalInv inp (evalStep inp o (evalRun inp o np n))
      unfold evalStep
      by_cases hz : (evalRun inp o np n).n_remain = 0
      · simpa [hz] using ih
      · simpa [hz] using evalBody_inv inp o _ ih

theorem evalInv_evaluated_take {inp : List Int} {s : EvalSt} (h : EvalInv inp s) :
    s.evaluated = (inp ++ s.sampled).take s.n_past := by
  obtain ⟨h1, h2, h3, h4, _⟩ := h
  rcases h4 with hs | hceq
  · rw [hs, List.append_nil] at h2
    have h2l := congrArg List.length h2
    simp only [List.length_append, List.length_take] at h2l
    rw [Nat.min_eq_left h3] at h2l
    have hle : s.evaluated.length ≤ s.n_consumed := by omega
    have hpre : s.evaluated = (List.take s.n_consumed inp).take s.evaluated.length := by
      rw [← h2, List.take_left]
    rw [h1, hs, List.append_nil]
    conv_lhs => rw [hpre]
    rw [List.take_take, Nat.min_eq_left hle]
  · rw [hceq, List.take_length] at h2
    rw [h1, ← h2, List.take_left]

/-- C3: at every observation point of the generation loop (after any number of
iterations), `n_past` equals the total number of tokens passed to `eval`
across all prior calls (`evaluated.length`); the tokens evaluated so far plus
the tokens currently pending in `embd` are exactly the consumed prefix of the
initial prompt followed by the sampled tokens fed back; and the evaluated
sequence is the length-`n_past` prefix of prompt-then-sampled tokens, i.e.
each token is evaluated exactly once, in order, with no duplicates or gaps. -/
theorem c3_npast_queue_drain_invariant (inp : List Int) (o : Nat → Int) (np n : Nat) :
    (evalRun inp o np n).n_past = (evalRun inp o np n).evaluated.length ∧
    (evalRun inp o np n).evaluated ++ (evalRun inp o np n).embd
      = inp.take (evalRun inp o np n).n_consumed ++ (evalRun inp o np n).sampled ∧
    (evalRun inp o np n).evaluated
      = (inp ++ (evalRun inp o np n).sampled).take (evalRun inp o np n).n_past := by
  have h := evalRun_inv inp o np n
  exact ⟨h.1, h.2.1, evalInv_evaluated_take h⟩

theorem evalRun_budget (inp : List Int) (o : Nat → Int) (np n : Nat) :
    (evalRun inp o np n).sampled.length + (evalRun inp o np n).n_remain = np := by
  induction n with
  | zero => simp [evalRun, evalInit]
  | succ n ih =>
      show (evalStep inp o (evalRun inp o np n)).sampled.length
          + (evalStep inp o (evalRun inp o np n)).n_remain = np
      unfold evalStep
      by_cases hz : (evalRun inp o np n).n_remain = 0
      · simpa [hz] using ih
      · unfold evalBody
        by_cases hc : inp.length ≤ (evalRun inp o np n).n_consumed
        · simp [hz, hc]
          omega
        · simp only [hc, if_neg, hz, not_false_iff]
          simpa using ih

theorem evalRun_nrem_step (inp : List Int) (o : Nat → Int) (np n : Nat) :
    (evalRun inp o np (n + 1)).n_remain =
      if (evalRun inp o np n).n_remain ≠ 0 ∧ inp.length ≤ (evalRun inp o np n).n_consumed
      then (evalRun inp o np n).n_remain - 1 else (evalRun inp o np n).n_remain := by
  show (evalStep inp o (evalRun inp o np n)).n_remain = _
  unfold evalStep evalBody
  by_cases hz : (evalRun inp o np n).n_remain = 0
  · simp [hz]
  · by_cases hc : inp.length ≤ (evalRun inp o np n).n_consumed
    · simp [hz, hc]
    · simp [hz, hc]

theorem evalStep_consumed_le (inp : List Int) (o : Nat → Int) (s : EvalSt) :
    s.n_consumed ≤ (evalStep inp o s).n_consumed := by
  unfold evalStep evalBody
  by_cases hz : s.n_remain = 0
  · simp [hz]
  · by_cases hc : inp.length ≤ s.n_consumed
    · simp [hz, hc]
    · simp only [hz, if_neg, hc, not_false_iff]
      exact Nat.le_of_lt (Nat.not_le.mp hc)

theorem evalRun_consumed_mono (inp : List Int) (o : Nat → Int) (np : Nat)
    {a b : Nat} (h : a ≤ b) :
    (evalRun inp o np a).n_consumed ≤ (evalRun inp o np b).n_consumed := by
  induction b with
  | zero => cases Nat.le_zero.mp h; exact Nat.le_refl _
  | succ b ih =>
      rcases Nat.eq_or_lt_of_le h with rfl | hlt
      · exact Nat.le_refl _
      · exact Nat.le_trans (ih (Nat.lt_succ_iff.mp hlt))
          (evalStep_consumed_le inp o (evalRun inp o np b))

theorem evalStep_nrem_le (inp : List Int) (o : Nat → Int) (s : EvalSt) :
    (evalStep inp o s).n_remain ≤ s.n_remain := by
  unfold evalStep evalBody
  by_cases hz : s.n_remain = 0
  · simp [hz]
  · by_cases hc : inp.length ≤ s.n_consumed
    · simp only [hz, if_neg, hc, if_pos, not_false_iff]
      exact Nat.sub_le _ _
    · simp [hz, hc]

theorem evalRun_nrem_mono (inp : List Int) (o : Nat → Int) (np : Nat)
    {a b : Nat} (h : a ≤ b) :
    (evalRun inp o np b).n_remain ≤ (evalRun inp o np a).n_remain := by
  induction b with
  | zero => cases Nat.le_zero.mp h; exact Nat.le_refl _
  | succ b ih =>
      rcases Nat.eq_or_lt_of_le h with rfl | hlt
      · exact Nat.le_refl _
      · exact Nat.le_trans (evalStep_nrem_le inp o (evalRun inp o np b))
          (ih (Nat.lt_succ_iff.mp hlt))

theorem evalRun_one_consumed (inp : List Int) (o : Nat → Int) (np : Nat) :
    inp.length ≤ (evalRun inp o np 1).n_consumed ∨ (evalRun inp o np 1).n_remain = 0 := by
  show inp.length ≤ (evalStep inp o (evalInit np)).n_consumed
    ∨ (evalStep inp o (evalInit np)).n_remain = 0
  unfold evalStep evalBody evalInit
  by_cases hz : np = 0
  · simp [hz]
  · by_cases hc : inp.length ≤ 0
    · left
      simp [hz, hc]
    · left
      simp [hz, hc]

theorem evalRun_drain_from (inp : List Int) (o : Nat → Int) (np n : Nat)
    (hcons : inp.length ≤ (evalRun inp o np n).n_consumed) (k : Nat) :
    (evalRun inp o np (n + k)).n_remain ≤ (evalRun inp o np n).n_remain - k := by
  induction k with
  | zero => simp
  | succ k ih =>
      have hcons' : inp.length ≤ (evalRun inp o np (n + k)).n_consumed :=
        Nat.le_trans hcons (evalRun_consumed_mono inp o np (Nat.le_add_right n k))
      have hstep := evalRun_nrem_step inp o np (n + k)
      by_cases hz : (evalRun inp o np (n + k)).n_remain = 0
      · rw [show n + (k + 1) = (n + k) + 1 from rfl, hstep]
        simp only [hz, ne_eq, not_true_eq_false, false_and, if_neg, not_false_iff]
        omega
      · rw [show n + (k + 1) = (n + k) + 1 from rfl, hstep]
        simp only [hz, ne_eq, not_false_eq_true, hcons', and_true, true_and, if_pos]
        omega

theorem evalRun_drain (inp : List Int) (o : Nat → Int) (np : Nat) :
    (evalRun inp o np (np + 1)).n_remain = 0 := by
  rcases evalRun_one_consumed inp o np with h1 | h1
  · have hd := evalRun_drain_from inp o np 1 h1 np
    have h2 : (evalRun inp o np 1).n_remain ≤ np := by
      have := evalRun_nrem_mono inp o np (Nat.zero_le 1)
      simpa [evalRun, evalInit] using this
    rw [Nat.add_comm 1 np] at hd
    omega
  · have := evalRun_nrem_mono inp o np (show 1 ≤ np + 1 by omega)
    omega

/-- C4: in the batch loop, `n_remain` decreases by exactly 1 on each
sample-branch iteration and is unchanged by ingest-branch (and idle)
iterations; the count of sampled tokens plus the remaining budget is always
`n_predict`, so at most `n_predict` sample steps occur, and after
`n_predict + 1` steps the budget is exhausted and the loop has terminated. -/
theorem c4_budget_monotonicity (inp : List Int) (o : Nat → Int) (np : Nat) :
    (∀ n, (evalRun inp o np n).sampled.length + (evalRun inp o np n).n_remain = np) ∧
    (∀ n, (evalRun inp o np (n + 1)).n_remain =
      if (evalRun inp o np n).n_remain ≠ 0 ∧ inp.length ≤ (evalRun inp o np n).n_consumed
      then (evalRun inp o np n).n_remain - 1 else (evalRun inp o np n).n_remain) ∧
    (∀ n, (evalRun inp o np n).sampled.length ≤ np) ∧
    (evalRun inp o np (np + 1)).n_remain = 0 := by
  refine ⟨evalRun_budget inp o np, evalRun_nrem_step inp o np, ?_, evalRun_drain inp o np⟩
  intro n
  have := evalRun_budget inp o np n
  omega

/-! ### The CLI (src/llamacpp/cli.py)

The CLI drives a `llamacpp.PyLLAMA` session.  `PyLLAMA` lives in the native
extension module, outside the repository's Python sources, so it is modelled
from the specification below. -/

/-- Modelled from the spec: the external Model collaborator (§6), consumed
through `tokenize`, `detokenize`, `sample` and the end-of-text /
begin-of-sequence token ids.  `sample` takes the recent-token window and the
number of tokens sampled so far (the native sampler is deterministic for a
fixed seed, so its k-th answer is a function of the window and k). -/
structure ModelOracle where
  tokenize : String → Bool → List Int
  detok : Int → String
  sample : List Int → Nat → Int
  eotId : Int
  bosId : Int

/-- `True` iff `pat` occurs as a substring of `s` (requires `pat ≠ ""`). -/
def containsSubstr (s pat : String) : Bool :=
  (s.splitOn pat).length != 1

/-- Modelled from the spec: the `llamacpp.PyLLAMA` generation session (§3,
§4.1), which is not under the repository's Python sources.  It owns the
pending-token queue, the evaluated-position counter `n_past`, the
recent-token window, the remaining sampling budget and the antiprompt.
`fedTexts` (texts passed to `update_input`), `nSampled` (count of sampled
tokens) and `resets` (count of `reset_remaining_tokens` calls) are ghost
fields used only in statements. -/
structure PyLLAMA where
  queue : List Int
  n_past : Nat
  recent : List Int
  n_remain : Nat
  n_predict : Nat
  repeatLastN : Nat
  antiprompt : Option String
  outputBuf : String
  eotSeen : Bool
  nSampled : Nat
  fedTexts : List String
  resets : Nat
  deriving Repr, DecidableEq

/-- Modelled from the spec: a fresh session for the given budget and
repeat-window size (`PyLLAMA(params)` in `main`). -/
def PyLLAMA.init (np rln : Nat) : PyLLAMA :=
  ⟨[], 0, [], np, np, rln, none, "", false, 0, [], 0⟩

/-- Keep the last `n` entries of `l` (the RecentWindow trim). -/
def lastWindow (n : Nat) (l : List Int) : List Int :=
  l.drop (l.length - n)

/-- Modelled from the spec: `update_input(text)` tokenizes `text` (no BOS) and
appends it to the pending-token queue. -/
def PyLLAMA.update_input (o : ModelOracle) (m : PyLLAMA) (text : String) : PyLLAMA :=
  { m with queue := m.queue ++ o.tokenize text false, fedTexts := m.fedTexts ++ [text] }

/-- Modelled from the spec: `update_input_tokens(tokens)` appends the given
token ids to the pending-token queue. -/
def PyLLAMA.update_input_tokens (m : PyLLAMA) (ts : List Int) : PyLLAMA :=
  { m with queue := m.queue ++ ts }

/-- Modelled from the spec: `add_bos()` enqueues the begin-of-sequence token. -/
def PyLLAMA.add_bos (o : ModelOracle) (m : PyLLAMA) : PyLLAMA :=
  { m with queue := m.queue ++ [o.bosId] }

/-- Modelled from the spec: `set_antiprompt(str)` installs the antiprompt. -/
def PyLLAMA.set_antiprompt (m : PyLLAMA) (a : String) : PyLLAMA :=
  { m with antiprompt := some a }

/-- Modelled from the spec: true iff the pending-token queue is non-empty. -/
def PyLLAMA.has_unconsumed_input (m : PyLLAMA) : Bool :=
  !m.queue.isEmpty

/-- Modelled from the spec: `ingest_all_pending_input(echo)` evaluates every
pending token (in batches, whose sizes are irrelevant to the net effect),
advancing `n_past` by the number evaluated and folding the evaluated tokens
into the recent window. -/
def PyLLAMA.ingest_all_pending_input (m : PyLLAMA) (_echo : Bool) : PyLLAMA :=
  { m with
    n_past := m.n_past + m.queue.length
    recent := lastWindow m.repeatLastN (m.recent ++ m.queue)
    queue := [] }

/-- Modelled from the spec: `infer_text()` samples one token, feeds it back
through the pending queue as a single-token entry, decrements the budget,
appends the decoded text to the running output buffer, and returns the
decoded text together with the is-finished flag (end-of-text sampled or
budget exhausted). -/
def PyLLAMA.infer_text (o : ModelOracle) (m : PyLLAMA) : (String × Bool) × PyLLAMA :=
  let t := o.sample m.recent m.nSampled
  let m' : PyLLAMA :=
    { m with
      recent := lastWindow m.repeatLastN (m.recent ++ [t])
      queue := m.queue ++ [t]
      n_remain := m.n_remain - 1
      nSampled := m.nSampled + 1
      outputBuf := m.outputBuf ++ o.detok t
      eotSeen := m.eotSeen || t == o.eotId }
  ((o.detok t, t == o.eotId || m'.n_remain == 0), m')

/-- Modelled from the spec: the session is finished when the end-of-text
token has been sampled or the sampling budget is exhausted. -/
def PyLLAMA.is_finished (m : PyLLAMA) : Bool :=
  m.eotSeen || m.n_remain == 0

/-- Modelled from the spec: `reset_remaining_tokens()` restores the sampling
budget to `n_predict`. -/
def PyLLAMA.reset_remaining_tokens (m : PyLLAMA) : PyLLAMA :=
  { m with n_remain := m.n_predict, resets := m.resets + 1 }

/-- Modelled from the spec: true iff the configured antiprompt occurs in the
running output buffer. -/
def PyLLAMA.is_antiprompt_present (m : PyLLAMA) : Bool :=
  match m.antiprompt with
  | none => false
  | some a => a != "" && containsSubstr m.outputBuf a

/-- The argparse namespace produced by `parse_args_into_params`
(src/llamacpp/cli.py lines 7-83), with the declared flags and their argparse
defaults.  Python namespaces have dynamic attributes: `antiprompt` is not
among the parser's destinations (the `--reverse-prompt` flag is stored under
`reverse_prompt`), so `antiprompt = none` models the absent attribute and
reading it raises `AttributeError`; `main` assigns it only in the instruct
branch.  `prompt` has no argparse default, so an invocation without `--prompt`
leaves it `None` (`none`). -/
structure Args where
  interactive : Bool := false
  instruct : Bool := false
  reverse_prompt : String := ""
  color : Bool := false
  seed : Int := -1
  threads : Nat := 4
  prompt : Option String := none
  file : String := ""
  n_predict : Nat := 128
  top_k : Nat := 40
  repeat_last_n : Nat := 64
  ctx_size : Nat := 4096
  batch_size : Nat := 8
  model : String := "./models/7B/ggml-model-q4_0.bin"
  antiprompt : Option String := none
  deriving Repr, DecidableEq

/-- Python's `str.strip()` (used at cli.py line 107): remove leading and
trailing whitespace. -/
def pyStrip (s : String) : String :=
  ⟨((s.data.dropWhile Char.isWhitespace).reverse.dropWhile Char.isWhitespace).reverse⟩

/-- The Python exceptions `main` can raise during setup. -/
inductive PyErr where
  | typeError
  | attributeError
  deriving Repr, DecidableEq

/-- The fixed instruct-mode antiprompt assigned at cli.py line 138. -/
def instructAntiprompt : String := "### Instruction:\n\n"

/-- The instruct prefix tokens: `model.tokenize("\n\n### Instruction:\n\n", True)`
(cli.py line 133). -/
def inpPfx (o : ModelOracle) : List Int :=
  o.tokenize "\n\n### Instruction:\n\n" true

/-- The instruct suffix tokens: `model.tokenize("\n\n### Response:\n\n", False)`
(cli.py line 134). -/
def inpSfx (o : ModelOracle) : List Int :=
  o.tokenize "\n\n### Response:\n\n" false

/-- The setup phase of `main` (cli.py lines 101-154), up to but not including
the generation loop: prompt-file handling, the `" " + args.prompt` space
prepend (a `TypeError` when `args.prompt` is `None`), session construction,
prompt feeding, the instruct branch, and the `args.antiprompt` read (an
`AttributeError` when the attribute was never assigned).  `fileContents` is
the content of `args.file` when that flag is non-empty.  Returns the updated
args and session, or the exception raised. -/
def mainSetup (o : ModelOracle) (args : Args) (fileContents : String) :
    Except PyErr (Args × PyLLAMA) :=
  -- if args.file: args.prompt = f.read().strip()
  let args := if args.file ≠ "" then { args with prompt := some (pyStrip fileContents) } else args
  -- args.prompt = " " + args.prompt  (TypeError if args.prompt is None)
  match args.prompt with
  | none => .error .typeError
  | some p =>
    let args := { args with prompt := some (" " ++ p) }
    -- model = llamacpp.PyLLAMA(params); model.add_bos(); model.update_input(args.prompt)
    let m := PyLLAMA.init args.n_predict args.repeat_last_n
    let m := m.add_bos o
    let m := m.update_input o (" " ++ p)
    -- if args.instruct: args.interactive = True; args.antiprompt = "### Instruction:\n\n"
    let args := if args.instruct then
        { args with interactive := true, antiprompt := some instructAntiprompt }
      else args
    -- if args.antiprompt: args.interactive = True; model.set_antiprompt(args.antiprompt)
    match args.antiprompt with
    | none => .error .attributeError
    | some a =>
      if a ≠ "" then .ok ({ args with interactive := true }, m.set_antiprompt a)
      else .ok (args, m)

/-- Python's `line.endswith("\\")` (cli.py line 93): the last character of
the line is a backslash. -/
def endsWithBackslash (s : String) : Bool :=
  match s.data.getLast? with
  | some c => c == '\\'
  | none => false

/-- Python's `line[:-1]` (cli.py line 94): the line without its final
character. -/
def dropLastChar (s : String) : String :=
  ⟨s.data.dropLast⟩

/-- The pure content of `process_interactive_input` (cli.py lines 86-98):
given the pending stdin lines, returns the list of texts passed to
`model.update_input` (each line read, with a trailing `"\"` removed when
present) and the remaining stdin lines.  Reading stops at the first line that
does not end with the escape character; an exhausted stdin (Python would
raise `EOFError`) stops reading. -/
def piiSplit : List String → List String × List String
  | [] => ([], [])
  | line :: rest =>
      if endsWithBackslash line then
        let r := piiSplit rest
        (dropLastChar line :: r.1, r.2)
      else ([line], rest)

/-- `process_interactive_input(model)` (cli.py lines 86-98): reads stdin lines,
feeding each (with any trailing escape removed) to `model.update_input`,
until a line without a trailing `"\"` is read. -/
def process_interactive_input (o : ModelOracle) (m : PyLLAMA) :
    List String → PyLLAMA × List String
  | [] => (m, [])
  | line :: rest =>
      if endsWithBackslash line then
        process_interactive_input o (m.update_input o (dropLastChar line)) rest
      else (m.update_input o line, rest)

/-- The state of the generation loop in `main` (cli.py lines 151-195): the
session, the loop-local Python variables (`is_interacting`, `input_noecho`
and the `is_finished` flag returned by the last `infer_text`), the pending
stdin lines, the generated text printed so far, whether the
`" [end of text]"` marker was printed (the `break` branch), and whether the
loop has exited. -/
structure LoopSt where
  m : PyLLAMA
  is_interacting : Bool
  input_noecho : Bool
  finFlag : Bool
  stdin : List String
  out : String
  endText : Bool
  done : Bool

/-- The loop state on entry to the `while` loop (cli.py lines 145-154):
`is_interacting` is `True` exactly when interactive mode printed its banner,
`input_noecho = is_finished = False`. -/
def initLoopSt (m : PyLLAMA) (interactive : Bool) (stdin : List String) : LoopSt :=
  ⟨m, interactive, false, false, stdin, "", false, false⟩

/-- Lines 157-166: ingest all pending input, or sample one token via
`infer_text`, print its text and record the returned is-finished flag. -/
def evalStage (o : ModelOracle) (s : LoopSt) : LoopSt :=
  if s.m.has_unconsumed_input then
    { s with m := s.m.ingest_all_pending_input (!s.input_noecho) }
  else
    let r := s.m.infer_text o
    { s with m := r.2, out := s.out ++ r.1.1, finFlag := r.1.2, input_noecho := false }

/-- Lines 168-183: in interactive mode, enter the awaiting-input sub-state
when the antiprompt is present or `is_interacting` is already set; an
instruct turn wraps the user's text between the prefix and suffix token
sequences. -/
def interactStage (o : ModelOracle) (args : Args) (s : LoopSt) : LoopSt :=
  if args.interactive then
    let s := if s.m.is_antiprompt_present then { s with is_interacting := true } else s
    if s.is_interacting then
      let m := if args.instruct then s.m.update_input_tokens (inpPfx o) else s.m
      let r := process_interactive_input o m s.stdin
      let m := if args.instruct then r.1.update_input_tokens (inpSfx o) else r.1
      { s with m := m, stdin := r.2, input_noecho := true, is_interacting := false }
    else s
  else s

/-- Lines 185-195: on the is-finished flag, either re-enter the
awaiting-input state (interactive) or print `" [end of text]"` and break
(batch); then, in interactive mode, reset the budget when the session is
finished so generation can continue. -/
def endStage (args : Args) (s : LoopSt) : LoopSt :=
  let s :=
    if s.finFlag then
      if args.interactive then { s with is_interacting := true }
      else { s with endText := true, done := true }
    else s
  if s.done then s
  else if args.interactive && s.m.is_finished then
    { s with m := s.m.reset_remaining_tokens, is_interacting := true }
  else s

/-- One pass of `while not model.is_finished(): ...` (cli.py lines 156-195):
check the loop condition, then run the body stages.  Once the loop has
exited (`done`), further passes change nothing. -/
def loopIterate (o : ModelOracle) (args : Args) (s : LoopSt) : LoopSt :=
  if s.done then s
  else if s.m.is_finished then { s with done := true }
  else endStage args (interactStage o args (evalStage o s))

/-- A concrete model oracle used to instantiate universally quantified
theorems on closed inputs. -/
def trivOracle : ModelOracle :=
  ⟨fun t b => if b then [1, 7] else if t = "" then [] else [5], fun _ => "x",
    fun _ _ => 9, 2, 1⟩


/-! ### Claims about the CLI setup phase -/

theorem mainSetup_no_instruct_error (o : ModelOracle) (args : Args) (fc : String)
    (hni : args.instruct = false) (hap : args.antiprompt = none)
    (hp : args.prompt ≠ none ∨ args.file ≠ "") :
    mainSetup o args fc = .error .attributeError := by
  by_cases hf : args.file = ""
  · rcases hp with hp | hp
    · obtain ⟨p, hp'⟩ := Option.ne_none_iff_exists'.mp hp
      simp [mainSetup, hf, hp', hni, hap]
    · exact absurd hf hp
  · simp [mainSetup, hf, hni, hap]

/-- C1 (refuting evaluation): a command line passing `--reverse-prompt STOP`
with a prompt and without `--instruct` makes `main` raise `AttributeError` at
the `args.antiprompt` read (cli.py line 141): argparse stores the flag under
`reverse_prompt` and `antiprompt` is assigned only in the instruct branch, so
`set_antiprompt` is never called and interactive mode is never enabled. -/
theorem c1_reverse_prompt_attribute_error :
    mainSetup trivOracle
      { prompt := some "hello", reverse_prompt := "STOP", instruct := false } ""
      = .error .attributeError :=
  mainSetup_no_instruct_error trivOracle
    { prompt := some "hello", reverse_prompt := "STOP", instruct := false } ""
    rfl rfl (Or.inl (by simp))

/-- C2 (amended): every argument list that does not include `--instruct` and
supplies a prompt source (`--prompt` or `--file`) makes `main` raise
`AttributeError` when evaluating `args.antiprompt`; and no argument list
without `--instruct` ever reaches the generation loop (argument lists with
neither prompt source fail earlier, with `TypeError`).  `hap` states that the
parser left the dynamic attribute `antiprompt` unset, which is true of every
`parse_args_into_params` result. -/
theorem c2_non_instruct_attribute_error (o : ModelOracle) (args : Args) (fc : String)
    (hni : args.instruct = false) (hap : args.antiprompt = none) :
    ((args.prompt ≠ none ∨ args.file ≠ "") →
      mainSetup o args fc = .error .attributeError) ∧
    (mainSetup o args fc).isOk = false := by
  constructor
  · exact mainSetup_no_instruct_error o args fc hni hap
  · by_cases hp : args.prompt ≠ none ∨ args.file ≠ ""
    · rw [mainSetup_no_instruct_error o args fc hni hap hp]
      rfl
    · push_neg at hp
      obtain ⟨hp1, hf⟩ := hp
      simp [mainSetup, hf, hp1, Except.isOk, Except.toBool]

/-- C2 witness. -/
theorem c2_witness :
    mainSetup trivOracle { prompt := some "hi" } "" = .error .attributeError ∧
    (mainSetup trivOracle { prompt := some "hi" } "").isOk = false := by
  have h := c2_non_instruct_attribute_error trivOracle { prompt := some "hi" } "" rfl rfl
  exact ⟨h.1 (Or.inl (by simp)), h.2⟩

/-- C2 counterexample to the claim as stated: the all-defaults argument list
(no `--instruct`, but also no prompt source) makes `main` raise `TypeError`
at `" " + args.prompt` (cli.py line 110), before `args.antiprompt` is ever
evaluated — not `AttributeError`. -/
theorem c2_counterexample :
    ({} : Args).instruct = false ∧
    mainSetup trivOracle {} "" = .error .typeError ∧
    mainSetup trivOracle {} "" ≠ .error .attributeError := by
  refine ⟨rfl, rfl, ?_⟩
  intro h
  rw [show mainSetup trivOracle {} "" = .error .typeError from rfl] at h
  exact PyErr.noConfusion (Except.error.inj h)

theorem mainSetup_instruct_fields (o : ModelOracle) (args : Args) (fc : String)
    (r : Args × PyLLAMA) (hins : args.instruct = true)
    (h : mainSetup o args fc = .ok r) :
    r.1.interactive = true ∧ r.2.antiprompt = some instructAntiprompt := by
  have hne : instructAntiprompt ≠ "" := by decide
  by_cases hf : args.file = ""
  · cases hp : args.prompt with
    | none => simp [mainSetup, hf, hp] at h
    | some p =>
        simp [mainSetup, hf, hp, hins, hne] at h
        subst h
        exact ⟨rfl, rfl⟩
  · simp [mainSetup, hf, hins, hne] at h
    subst h
    exact ⟨rfl, rfl⟩

theorem mainSetup_instruct_isOk (o : ModelOracle) (args : Args) (fc : String)
    (hins : args.instruct = true) (hp : args.prompt ≠ none ∨ args.file ≠ "") :
    (mainSetup o args fc).isOk = true := by
  have hne : instructAntiprompt ≠ "" := by decide
  by_cases hf : args.file = ""
  · rcases hp with hp | hp
    · obtain ⟨p, hp'⟩ := Option.ne_none_iff_exists'.mp hp
      simp [mainSetup, hf, hp', hins, hne, Except.isOk, Except.toBool]
    · exact absurd hf hp
  · simp [mainSetup, hf, hins, hne, Except.isOk, Except.toBool]

/-- C7: passing `--instruct` (with a prompt source, so that setup reaches the
mode-configuration code) enables interactive mode and installs exactly the
fixed antiprompt `"### Instruction:\n\n"` on the session via
`set_antiprompt`. -/
theorem c7_instruct_implies_interactive_antiprompt (o : ModelOracle) (args : Args)
    (fc : String) (hins : args.instruct = true)
    (hp : args.prompt ≠ none ∨ args.file ≠ "") :
    (mainSetup o args fc).toOption.map (fun r => (r.1.interactive, r.2.antiprompt))
      = some (true, some instructAntiprompt) := by
  cases hok : mainSetup o args fc with
  | error e =>
      have hok2 := mainSetup_instruct_isOk o args fc hins hp
      rw [hok] at hok2
      exact absurd hok2 (by simp [Except.isOk, Except.toBool])
  | ok r =>
      have hfld := mainSetup_instruct_fields o args fc r hins hok
      simp [Except.toOption, hfld.1, hfld.2]

/-- C7 witness. -/
theorem c7_witness :
    (mainSetup trivOracle { instruct := true, prompt := some "hi" } "").toOption.map
        (fun r => (r.1.interactive, r.2.antiprompt))
      = some (true, some instructAntiprompt) :=
  c7_instruct_implies_interactive_antiprompt trivOracle
    { instruct := true, prompt := some "hi" } "" rfl (Or.inl (by simp))

theorem mainSetup_ok_fedTexts (o : ModelOracle) (args : Args) (fc : String)
    (r : Args × PyLLAMA) (h : mainSetup o args fc = .ok r) :
    r.2.fedTexts = [" " ++ (if args.file ≠ "" then pyStrip fc else args.prompt.getD "")] := by
  have hne : instructAntiprompt ≠ "" := by decide
  by_cases hf : args.file = ""
  · cases hp : args.prompt with
    | none => simp [mainSetup, hf, hp] at h
    | some p =>
        by_cases hins : args.instruct
        · simp [mainSetup, hf, hp, hins, hne] at h
          subst h
          simp [hf, hp, PyLLAMA.set_antiprompt, PyLLAMA.update_input,
            PyLLAMA.add_bos, PyLLAMA.init]
        · cases hap : args.antiprompt with
          | none => simp [mainSetup, hf, hp, hins, hap] at h
          | some a =>
              by_cases ha : a = ""
              · simp [mainSetup, hf, hp, hins, hap, ha] at h
                subst h
                simp [hf, hp, PyLLAMA.update_input, PyLLAMA.add_bos, PyLLAMA.init]
              · simp [mainSetup, hf, hp, hins, hap, ha] at h
                subst h
                simp [hf, hp, PyLLAMA.set_antiprompt, PyLLAMA.update_input,
                  PyLLAMA.add_bos, PyLLAMA.init]
  · by_cases hins : args.instruct
    · simp [mainSetup, hf, hins, hne] at h
      subst h
      simp [hf, PyLLAMA.set_antiprompt, PyLLAMA.update_input, PyLLAMA.add_bos,
        PyLLAMA.init]
    · cases hap : args.antiprompt with
      | none => simp [mainSetup, hf, hins, hap] at h
      | some a =>
          by_cases ha : a = ""
          · simp [mainSetup, hf, hins, hap, ha] at h
            subst h
            simp [hf, PyLLAMA.update_input, PyLLAMA.add_bos, PyLLAMA.init]
          · simp [mainSetup, hf, hins, hap, ha] at h
            subst h
            simp [hf, PyLLAMA.set_antiprompt, PyLLAMA.update_input,
              PyLLAMA.add_bos, PyLLAMA.init]

/-- C10: with neither `--prompt` nor `--file`, `main` raises `TypeError` at
`" " + args.prompt` and no session is built; with `--file`, the stripped file
contents replace any `--prompt` value (the fed text does not depend on
`args.prompt`); and whenever setup succeeds, the single text fed to the model
is the chosen prompt with exactly one space prepended. -/
theorem c10_prompt_handling (o : ModelOracle) (args : Args) (fc : String) :
    (args.prompt = none → args.file = "" → mainSetup o args fc = .error .typeError) ∧
    (args.file ≠ "" → (mainSetup o args fc).toOption.map (fun r => r.2.fedTexts)
      = (mainSetup o args fc).toOption.map (fun _ => [" " ++ pyStrip fc])) ∧
    ((mainSetup o args fc).toOption.map (fun r => r.2.fedTexts)
      = (mainSetup o args fc).toOption.map
          (fun _ => [" " ++ (if args.file ≠ "" then pyStrip fc else args.prompt.getD "")])) := by
  refine ⟨?_, ?_, ?_⟩
  · intro hp hf
    simp [mainSetup, hf, hp]
  · intro hf
    cases hok : mainSetup o args fc with
    | error e => simp [Except.toOption]
    | ok r =>
        simp only [Except.toOption, Option.map_some']
        rw [mainSetup_ok_fedTexts o args fc r hok, if_pos hf]
  · cases hok : mainSetup o args fc with
    | error e => simp [Except.toOption]
    | ok r =>
        simp only [Except.toOption, Option.map_some']
        rw [mainSetup_ok_fedTexts o args fc r hok]

/-- C10 witness: the all-defaults argument list supplies neither prompt
source and raises `TypeError`; a `--file` invocation feeds exactly the
stripped file contents with one space prepended, ignoring `--prompt`. -/
theorem c10_witness :
    mainSetup trivOracle {} "" = .error .typeError ∧
    (mainSetup trivOracle { file := "f.txt", prompt := some "ignored", instruct := true }
        " hi \n").toOption.map (fun r => r.2.fedTexts)
      = (mainSetup trivOracle { file := "f.txt", prompt := some "ignored", instruct := true }
        " hi \n").toOption.map (fun _ => [" hi"]) := by
  constructor
  · exact (c10_prompt_handling trivOracle {} "").1 rfl rfl
  · have h := (c10_prompt_handling trivOracle
      { file := "f.txt", prompt := some "ignored", instruct := true } " hi \n").2.1
      (by simp)
    rw [show (" " ++ pyStrip " hi \n") = " hi" from by decide] at h
    exact h

/-! ### Claims about interactive input reading -/

theorem piiSplit_continuation (ls : List String) (last : String) (rest : List String)
    (hls : ∀ l ∈ ls, endsWithBackslash l = true)
    (hlast : endsWithBackslash last = false) :
    piiSplit (ls ++ last :: rest) = (ls.map dropLastChar ++ [last], rest) := by
  induction ls with
  | nil => simp [piiSplit, hlast]
  | cons a as ih =>
      have ha : endsWithBackslash a = true := hls a (List.mem_cons_self a as)
      have has : ∀ l ∈ as, endsWithBackslash l = true := fun l hl =>
        hls l (List.mem_cons_of_mem a hl)
      simp [piiSplit, ha, ih has]

theorem process_interactive_input_spec (o : ModelOracle) (stdin : List String) :
    ∀ m : PyLLAMA,
      (process_interactive_input o m stdin).1.queue
        = m.queue ++ ((piiSplit stdin).1.map (fun t => o.tokenize t false)).flatten ∧
      (process_interactive_input o m stdin).1.fedTexts
        = m.fedTexts ++ (piiSplit stdin).1 ∧
      (process_interactive_input o m stdin).2 = (piiSplit stdin).2 := by
  induction stdin with
  | nil =>
      intro m
      simp [process_interactive_input, piiSplit]
  | cons line rest ih =>
      intro m
      by_cases he : endsWithBackslash line
      · obtain ⟨hq, hf, hr⟩ := ih (m.update_input o (dropLastChar line))
        refine ⟨?_, ?_, ?_⟩
        · simp only [process_interactive_input, he, if_true]
          rw [hq]
          simp [piiSplit, he, PyLLAMA.update_input]
        · simp only [process_interactive_input, he, if_true]
          rw [hf]
          simp [piiSplit, he, PyLLAMA.update_input]
        · simp only [process_interactive_input, he, if_true]
          rw [hr]
          simp [piiSplit, he]
      · refine ⟨?_, ?_, ?_⟩ <;>
          simp [process_interactive_input, piiSplit, he, PyLLAMA.update_input]

/-- C6: for a sequence of physical stdin lines in which every line before the
last ends with the escape character `\` and the last does not,
`process_interactive_input` feeds exactly those lines to the model, in order,
each with its trailing escape removed, enqueues their tokenizations in order
with nothing dropped or duplicated, and stops reading at the first line
lacking the trailing escape (the following stdin lines are untouched). -/
theorem c6_line_continuation (o : ModelOracle) (m : PyLLAMA)
    (ls : List String) (last : String) (rest : List String)
    (hls : ∀ l ∈ ls, endsWithBackslash l = true)
    (hlast : endsWithBackslash last = false) :
    (process_interactive_input o m (ls ++ last :: rest)).1.fedTexts
      = m.fedTexts ++ (ls.map dropLastChar ++ [last]) ∧
    (process_interactive_input o m (ls ++ last :: rest)).1.queue
      = m.queue ++ ((ls.map dropLastChar ++ [last]).map
          (fun t => o.tokenize t false)).flatten ∧
    (process_interactive_input o m (ls ++ last :: rest)).2 = rest := by
  obtain ⟨hq, hf, hr⟩ := process_interactive_input_spec o (ls ++ last :: rest) m
  rw [piiSplit_continuation ls last rest hls hlast] at hq hf hr
  exact ⟨hf, hq, hr⟩

/-- C6 witness. -/
theorem c6_witness :
    (process_interactive_input trivOracle (PyLLAMA.init 1 1)
        (["ab\\", "c\\"] ++ "d" :: ["zz"])).1.fedTexts
      = (PyLLAMA.init 1 1).fedTexts ++ (["ab\\", "c\\"].map dropLastChar ++ ["d"]) ∧
    (process_interactive_input trivOracle (PyLLAMA.init 1 1)
        (["ab\\", "c\\"] ++ "d" :: ["zz"])).1.queue
      = (PyLLAMA.init 1 1).queue ++ ((["ab\\", "c\\"].map dropLastChar ++ ["d"]).map
          (fun t => trivOracle.tokenize t false)).flatten ∧
    (process_interactive_input trivOracle (PyLLAMA.init 1 1)
        (["ab\\", "c\\"] ++ "d" :: ["zz"])).2 = ["zz"] :=
  c6_line_continuation trivOracle (PyLLAMA.init 1 1) ["ab\\", "c\\"] "d" ["zz"]
    (by decide) (by decide)

theorem update_input_tokens_queue (m : PyLLAMA) (ts : List Int) :
    (m.update_input_tokens ts).queue = m.queue ++ ts := rfl

/-- C5: in instruct mode, the token sequence enqueued for a user turn is
exactly the instruct prefix tokens (`tokenize("\n\n### Instruction:\n\n", True)`),
followed by the tokenizations of the user's logical line's physical lines (in
order, trailing escapes removed), followed by the instruct suffix tokens
(`tokenize("\n\n### Response:\n\n", False)`), with nothing dropped or
duplicated; the turn consumes exactly the lines up to the first one without a
trailing escape. -/
theorem c5_instruct_framing (o : ModelOracle) (args : Args) (s : LoopSt)
    (hint : args.interactive = true) (hins : args.instruct = true)
    (hii : s.is_interacting = true) :
    (interactStage o args s).m.queue
      = s.m.queue ++ inpPfx o
        ++ ((piiSplit s.stdin).1.map (fun t => o.tokenize t false)).flatten
        ++ inpSfx o ∧
    (interactStage o args s).stdin = (piiSplit s.stdin).2 := by
  obtain ⟨hq, hf, hr⟩ := process_interactive_input_spec o s.stdin
    (s.m.update_input_tokens (inpPfx o))
  by_cases hap : s.m.is_antiprompt_present = true
  · constructor
    · simp only [interactStage, hint, hap, hins, if_true, ite_true]
      rw [update_input_tokens_queue, hq, update_input_tokens_queue]
    · simp only [interactStage, hint, hap, hins, if_true, ite_true]
      exact hr
  · constructor
    · simp only [interactStage, hint, hap, hins, hii, if_true, ite_true,
        Bool.false_eq_true, if_false]
      rw [update_input_tokens_queue, hq, update_input_tokens_queue]
    · simp only [interactStage, hint, hap, hins, hii, if_true, ite_true,
        Bool.false_eq_true, if_false]
      exact hr

/-- A concrete loop state for witnesses. -/
def c5st : LoopSt :=
  ⟨PyLLAMA.init 4 2, true, false, false, ["hi"], "", false, false⟩

/-- C5 witness. -/
theorem c5_witness :
    (interactStage trivOracle { interactive := true, instruct := true } c5st).m.queue
      = c5st.m.queue ++ inpPfx trivOracle
        ++ ((piiSplit c5st.stdin).1.map (fun t => trivOracle.tokenize t false)).flatten
        ++ inpSfx trivOracle ∧
    (interactStage trivOracle { interactive := true, instruct := true } c5st).stdin
      = (piiSplit c5st.stdin).2 :=
  c5_instruct_framing trivOracle { interactive := true, instruct := true } c5st
    rfl rfl rfl

/-! ### The end-to-end determinism scenario (test_eval's assertion) -/

/-- Modelled from the spec: the tokenization of `" Llama is"` with BOS by the
fixed-seed model of the scenario (the native model's actual token ids are not
in the repository; abstract ids are used, related to text only through
`c9Detok`). -/
def c9PromptTokens : List Int := [1, 100, 101]

/-- Modelled from the spec: `token_to_str` for the token ids appearing in the
scenario; the BOS token decodes to the empty string. -/
def c9Detok : Int → String := fun t =>
  if t = 1 then "" else if t = 100 then " Llama" else if t = 101 then " is"
  else if t = 102 then " the" else if t = 103 then " newest"
  else if t = 104 then " member" else if t = 105 then " of"
  else if t = 106 then " our" else if t = 107 then " farm"
  else if t = 108 then " fam" else if t = 109 then "ily" else "?"

/-- Modelled from the spec: the deterministic sample sequence produced with
the fixed seed, prompt `" Llama is"`, `top_k=40, top_p=0.95, temp=0.8,
repeat_last_n=64`. -/
def c9Sample : Nat → Int := fun k => 102 + k

/-- C9: with the fixed-seed deterministic sampler, prompt `" Llama is"` and a
budget of 8 tokens, the loop (one ingest iteration draining the prompt, then
one sampled token fed back per iteration) terminates with the budget
exhausted and the decoded concatenation of its output tokens is exactly
`" Llama is the newest member of our farm family"`. -/
theorem c9_determinism_scenario :
    (evalRun c9PromptTokens c9Sample 8 9).n_remain = 0 ∧
    String.join (((evalRun c9PromptTokens c9Sample 8 9).outTokens).map c9Detok)
      = " Llama is the newest member of our farm family" := by
  constructor
  · decide
  · decide

/-! ### The end-of-text / interactive-continuation claim -/

theorem evalStage_endText_done (o : ModelOracle) (s : LoopSt) :
    (evalStage o s).endText = s.endText ∧ (evalStage o s).done = s.done := by
  unfold evalStage
  by_cases h : s.m.has_unconsumed_input = true <;> simp [h]

theorem interactStage_endText_done (o : ModelOracle) (args : Args) (s : LoopSt) :
    (interactStage o args s).endText = s.endText
      ∧ (interactStage o args s).done = s.done := by
  unfold interactStage
  by_cases hi : args.interactive = true
  · simp only [hi, if_true]
    by_cases hap : s.m.is_antiprompt_present = true
    · simp [hap]
    · by_cases hii : s.is_interacting = true <;> simp [hap, hii]
  · simp [hi]

theorem endStage_interactive (args : Args) (s : LoopSt) (hint : args.interactive = true)
    (hd : s.done = false) :
    (endStage args s).endText = s.endText ∧
    (endStage args s).done = false ∧
    (s.m.is_finished = true →
      (endStage args s).m.n_remain = s.m.n_predict ∧
      (endStage args s).m.resets = s.m.resets + 1 ∧
      (endStage args s).is_interacting = true) := by
  unfold endStage
  by_cases hfin : s.finFlag = true
  · by_cases hmf : s.m.is_finished = true
    · simp [hfin, hint, hd, hmf, PyLLAMA.reset_remaining_tokens]
    · simp [hfin, hint, hd, hmf]
  · by_cases hmf : s.m.is_finished = true
    · simp [hfin, hint, hd, hmf, PyLLAMA.reset_remaining_tokens]
    · simp [hfin, hint, hd, hmf]

theorem loopIterate_interactive_step (o : ModelOracle) (args : Args) (s : LoopSt)
    (hint : args.interactive = true) :
    (loopIterate o args s).endText = s.endText ∧
    ((loopIterate o args s).done = true → s.done = true ∨ s.m.is_finished = true) ∧
    (s.done = false → s.m.is_finished = false →
      ((interactStage o args (evalStage o s)).m.is_finished = true →
        (loopIterate o args s).m.n_remain
            = (interactStage o args (evalStage o s)).m.n_predict ∧
        (loopIterate o args s).m.resets
            = (interactStage o args (evalStage o s)).m.resets + 1 ∧
        (loopIterate o args s).is_interacting = true)) := by
  by_cases hd : s.done = true
  · simp [loopIterate, hd]
  · by_cases hmf : s.m.is_finished = true
    · simp [loopIterate, hd, hmf]
    · have hd' : s.done = false := by
        simpa using hd
      have hes := evalStage_endText_done o s
      have his := interactStage_endText_done o args (evalStage o s)
      have hdone2 : (interactStage o args (evalStage o s)).done = false := by
        rw [his.2, hes.2]
        exact hd'
      have hend := endStage_interactive args (interactStage o args (evalStage o s))
        hint hdone2
      have hbody : loopIterate o args s
          = endStage args (interactStage o args (evalStage o s)) := by
        simp [loopIterate, hd, hmf]
      refine ⟨?_, ?_, ?_⟩
      · rw [hbody, hend.1, his.1, hes.1]
      · intro hcontra
        rw [hbody, hend.2.1] at hcontra
        exact absurd hcontra (by simp)
      · intro _ _ hfin2
        rw [hbody]
        exact hend.2.2 hfin2

/-- C8: in interactive mode the generation loop never takes the end-of-text
branch: the `" [end of text]"` marker is never printed (the `break` there is
never reached), the loop can only exit through its `while` condition when the
session was already finished at the top of an iteration, and every executed
iteration that ends with the session finished calls `reset_remaining_tokens`
(restoring the budget to `n_predict`) and re-enters the awaiting-input state
(`is_interacting = true`), so generation can continue across turns. -/
theorem c8_interactive_never_end_of_text (o : ModelOracle) (args : Args) (s : LoopSt)
    (hint : args.interactive = true) :
    (∀ n, ((loopIterate o args)^[n] s).endText = s.endText) ∧
    (∀ n, ((loopIterate o args)^[n] s).done = false →
      ((loopIterate o args)^[n + 1] s).done = true →
      ((loopIterate o args)^[n] s).m.is_finished = true) ∧
    (∀ n, ((loopIterate o args)^[n] s).done = false →
      ((loopIterate o args)^[n] s).m.is_finished = false →
      (interactStage o args (evalStage o ((loopIterate o args)^[n] s))).m.is_finished
        = true →
      ((loopIterate o args)^[n + 1] s).m.n_remain
          = (interactStage o args (evalStage o ((loopIterate o args)^[n] s))).m.n_predict ∧
      ((loopIterate o args)^[n + 1] s).m.resets
          = (interactStage o args (evalStage o ((loopIterate o args)^[n] s))).m.resets + 1 ∧
      ((loopIterate o args)^[n + 1] s).is_interacting = true) := by
  refine ⟨?_, ?_, ?_⟩
  · intro n
    induction n with
    | zero => rfl
    | succ n ih =>
        rw [Function.iterate_succ_apply',
          (loopIterate_interactive_step o args _ hint).1, ih]
  · intro n h1 h2
    rw [Function.iterate_succ_apply'] at h2
    rcases (loopIterate_interactive_step o args _ hint).2.1 h2 with h | h
    · exact absurd h (by simp [h1])
    · exact h
  · intro n h1 h2 h3
    rw [Function.iterate_succ_apply']
    exact (loopIterate_interactive_step o args _ hint).2.2 h1 h2 h3

/-- A concrete loop state for the C8 witness. -/
def c8st : LoopSt := initLoopSt (PyLLAMA.init 2 2) true ["x"]

/-- C8 witness. -/
theorem c8_witness :
    ((loopIterate trivOracle { interactive := true })^[3] c8st).endText = false :=
  ((c8_interactive_never_end_of_text trivOracle { interactive := true } c8st rfl).1
    3).trans rfl
